import Mathlib

/-!
Verification development for the cctv-agent repository.

Two components are embedded shallowly:

* `Updater` — the OTA update engine (`internal/updater/updater.go`):
  version parsing and comparison (the `hashicorp/go-version` library, as
  used by `needUpdate`), the update cycle `checkAndMaybeUpdate`,
  `installRelease` / `pruneOldReleases`, and the periodic scheduling of
  `RunPeriodic`.

* `StreamMgr` — the stream supervision engine (`internal/stream/manager.go`):
  an operational small-step model of the supervisory goroutines launched by
  `Manager.Start` (which acquire the admission semaphore), by
  `Manager.AddCamera` (which run under the manager's `errgroup` and do not
  touch the semaphore), and by `Manager.RestartStream` (plain goroutine,
  no semaphore, no errgroup).

Filesystem effects, time and network I/O are abstracted: filesystem state
is a record of release-directory names, the `current` pointer target and
the staged artifacts; the outcomes of process spawns, downloads and
manifest fetches are inputs to the transition relation / cycle function.
-/

namespace Updater

/-! ### Character-list utilities

Go compares and sorts byte strings; for the ASCII data handled here this
agrees with comparing Lean `Char` lists, which the kernel can evaluate. -/

/-- Split a character list at every occurrence of `c` (model of
`strings.Split` for a one-character separator). Always returns at least
one (possibly empty) group. -/
def splitOnChar (c : Char) : List Char → List (List Char)
  | [] => [[]]
  | ch :: rest =>
    let r := splitOnChar c rest
    if ch = c then [] :: r
    else
      match r with
      | [] => [[ch]]
      | g :: gs => (ch :: g) :: gs

/-- Join character-list groups with separator `c` (inverse of `splitOnChar`). -/
def joinWith (c : Char) : List (List Char) → List Char
  | [] => []
  | [g] => g
  | g :: gs => g ++ c :: joinWith c gs

/-- Byte-wise strict order on character lists, as Go compares strings. -/
def charListLt : List Char → List Char → Bool
  | [], [] => false
  | [], _ :: _ => true
  | _ :: _, [] => false
  | a :: as, b :: bs =>
    if a.toNat < b.toNat then true
    else if b.toNat < a.toNat then false
    else charListLt as bs

/-- Byte-wise `≤` on character lists. -/
def charListLe (a b : List Char) : Bool := !charListLt b a

/-- Byte-wise `≤` on strings (the order `os.ReadDir` sorts directory
entries by). -/
def strLeB (a b : String) : Bool := charListLe a.data b.data

/-! ### go-version: parsing and semantic-version comparison

Model of `github.com/hashicorp/go-version` v1.6.0 as exercised by
`needUpdate`/`CheckForUpdate`: an optional `v` prefix, dot-separated
numeric core segments, an optional `-prerelease` suffix and an optional
`+metadata` suffix (ignored for comparison). Comparison zero-pads the
core segments, a release outranks any prerelease, and prerelease parts
are compared numerically when both are numeric and byte-wise otherwise,
following the library's `comparePart`. -/

/-- A core segment must be a nonempty run of ASCII digits. -/
def isNumericSeg (l : List Char) : Bool := !l.isEmpty && l.all (fun c => c.isDigit)

/-- Numeric value of a digit run. -/
def digitsVal (l : List Char) : Nat := l.foldl (fun n c => n * 10 + (c.toNat - 48)) 0

/-- Parsed version: core segments plus prerelease text (build metadata is
dropped, as go-version ignores it when comparing). -/
structure GoVersion where
  segments : List Nat
  pre : List Char
deriving DecidableEq

/-- Parse a version from its characters; `none` models the library
returning a "malformed version" error. -/
def parseVersionChars (l : List Char) : Option GoVersion :=
  let l1 := match l with
    | 'v' :: rest => rest
    | _ => l
  let beforeMeta := (splitOnChar '+' l1).headD []
  match splitOnChar '-' beforeMeta with
  | [] => none
  | core :: rest =>
    let segs := splitOnChar '.' core
    if segs.all isNumericSeg then
      some ⟨segs.map digitsVal, joinWith '-' rest⟩
    else
      none

/-- Parse a version string (model of `version.NewVersion`). -/
def parseVersion (s : String) : Option GoVersion := parseVersionChars s.data

/-- Pad a segment list with trailing zeros up to length `n`. -/
def padZeros (l : List Nat) (n : Nat) : List Nat := l ++ List.replicate (n - l.length) 0

/-- Three-way comparison on naturals. -/
def natCompare (a b : Nat) : Ordering :=
  if a < b then .lt else if b < a then .gt else .eq

/-- Lexicographic comparison of equal-length padded segment lists. -/
def compareLexNat : List Nat → List Nat → Ordering
  | [], _ => .eq
  | _ :: _, [] => .eq
  | a :: as, b :: bs =>
    match natCompare a b with
    | .eq => compareLexNat as bs
    | o => o

/-- Compare core segments with zero padding, as go-version does. -/
def compareSegs (a b : List Nat) : Ordering :=
  compareLexNat (padZeros a (max a.length b.length)) (padZeros b (max a.length b.length))

/-- go-version `comparePart` on one dot-separated prerelease part. -/
def comparePart (a b : List Char) : Ordering :=
  if a = b then .eq
  else if a = [] then (if isNumericSeg b then .lt else .gt)
  else if b = [] then (if isNumericSeg a then .gt else .lt)
  else if isNumericSeg a && !isNumericSeg b then .lt
  else if !isNumericSeg a && isNumericSeg b then .gt
  else if isNumericSeg a && isNumericSeg b then natCompare (digitsVal a) (digitsVal b)
  else if charListLt a b then .lt
  else .gt

/-- Pad prerelease part lists with empty parts up to length `n`. -/
def padParts (l : List (List Char)) (n : Nat) : List (List Char) :=
  l ++ List.replicate (n - l.length) []

/-- Part-wise comparison of equal-length padded prerelease part lists. -/
def comparePartsLex : List (List Char) → List (List Char) → Ordering
  | [], _ => .eq
  | _ :: _, [] => .eq
  | a :: as, b :: bs =>
    match comparePart a b with
    | .eq => comparePartsLex as bs
    | o => o

/-- go-version `comparePrereleases` on the prerelease texts. -/
def comparePre (a b : List Char) : Ordering :=
  if a = b then .eq
  else
    let pa := splitOnChar '.' a
    let pb := splitOnChar '.' b
    comparePartsLex (padParts pa (max pa.length pb.length)) (padParts pb (max pa.length pb.length))

/-- go-version `Compare`: core segments first, then a release outranks a
prerelease, then prerelease texts part-wise. -/
def gvCompare (a b : GoVersion) : Ordering :=
  match compareSegs a.segments b.segments with
  | .eq =>
    if a.pre = b.pre then .eq
    else if a.pre = [] then .gt
    else if b.pre = [] then .lt
    else comparePre a.pre b.pre
  | o => o

/-! ### Updater data model -/

/-- Update metadata (`Manifest` in updater.go; the unused `Size` hint is
dropped). -/
structure Manifest where
  version : String
  url : String
  sha256 : String
  os : String
  arch : String
  channel : String
deriving DecidableEq

/-- The updater options consumed by the functions modelled here
(`config.UpdaterConfig`). `interval` is in nanoseconds. -/
structure UpdaterOpts where
  enabled : Bool
  url : String
  channel : String
  allowDowngrade : Bool
  keepReleases : Nat
  interval : Nat
deriving DecidableEq

/-- Abstract filesystem state under `baseDir`: the release-directory
names under `releases/`, the version the `current` symlink designates,
and the finalized artifact names under `updates/`. -/
structure FsState where
  releases : List String
  current : Option String
  updates : List String
deriving DecidableEq

/-- ASCII lowering (model of the case folding in `strings.EqualFold` for
the ASCII channel names used here). -/
def lowerChar (c : Char) : Char :=
  if 65 ≤ c.toNat && c.toNat ≤ 90 then Char.ofNat (c.toNat + 32) else c

/-- Case-insensitive string equality (`strings.EqualFold`). -/
def eqFold (a b : String) : Bool :=
  decide (a.data.map lowerChar = b.data.map lowerChar)

/-- Version gate (`Updater.needUpdate`, updater.go:199-218): an empty
available version is "no update"; otherwise both versions are parsed and
the update is wanted iff the available one is strictly newer, or strictly
older when `allowDowngrade` is set. -/
def needUpdate (currentVersion : String) (allowDowngrade : Bool) (avail : String) :
    Except String Bool :=
  if avail = "" then .ok false
  else
    match parseVersion currentVersion with
    | none => .error "parse current version"
    | some cur =>
      match parseVersion avail with
      | none => .error "parse available version"
      | some av =>
        if gvCompare av cur = .gt then .ok true
        else if allowDowngrade && (gvCompare av cur = .lt) then .ok true
        else .ok false

/-- Checksum verification (`Updater.verifyChecksum`, updater.go:543-567),
over the already-computed SHA-256 hex digest of the staged artifact. -/
def verifyChecksum (actualChecksum expectedChecksum : String) : Except String Unit :=
  if actualChecksum ≠ expectedChecksum then .error "checksum mismatch" else .ok ()

/-- Insertion into a directory listing (`os.MkdirAll` / finalizing rename:
creating an entry that may already exist). -/
def insertUnique (v : String) (l : List String) : List String :=
  if v ∈ l then l else l ++ [v]

/-- Insert into a `strLeB`-sorted list. -/
def insertSorted (x : String) : List String → List String
  | [] => [x]
  | y :: ys => if strLeB x y then x :: y :: ys else y :: insertSorted x ys

/-- Sort directory-entry names byte-wise ascending, the order
`os.ReadDir` presents them in. -/
def sortStrings (l : List String) : List String := l.foldr insertSorted []

/-- Pruning (`Updater.pruneOldReleases`, updater.go:296-309): if more
than `keep` entries exist, remove the first `len - keep` of the sorted
directory listing (the lexicographically smallest names). -/
def pruneOldReleases (keep : Nat) (releases : List String) : List String :=
  let entries := sortStrings releases
  if entries.length ≤ keep then entries
  else entries.drop (entries.length - keep)

/-- Install (`Updater.installRelease`, updater.go:252-277): create the
release directory, atomically repoint `current` at the new version via
the temp-symlink-and-rename (modelled as one state change), then prune. -/
def installRelease (fs : FsState) (ver : String) (keep : Nat) : FsState :=
  let withRelease := insertUnique ver fs.releases
  { releases := pruneOldReleases keep withRelease
    current := some ver
    updates := fs.updates }

/-- One update cycle (`Updater.checkAndMaybeUpdate`, updater.go:69-122).

Environment outcomes are inputs: `fetched` is the manifest delivered by
`fetchManifest` (`none` models its error return, including the "no update
available" SocketIO response), `downloadOk` whether the staged download
succeeds, and `downloadedHash` the SHA-256 hex digest of the artifact the
download produced. Returns the final filesystem state and either the
cycle's error or whether an install (and scheduled restart) happened. -/
def checkAndMaybeUpdate (currentVersion : String) (opts : UpdaterOpts)
    (goos goarch : String) (fetched : Option Manifest)
    (downloadOk : Bool) (downloadedHash : String) (fs : FsState) :
    FsState × Except String Bool :=
  let m? : Option Manifest :=
    match fetched with
    | some m => some m
    | none =>
      if opts.url = "" then none
      else some ⟨currentVersion, opts.url, "", goos, goarch, opts.channel⟩
  match m? with
  | none => (fs, .error "fetch manifest")
  | some m =>
    if m.channel ≠ "" ∧ opts.channel ≠ "" ∧ eqFold m.channel opts.channel = false then
      (fs, .ok false)
    else if (m.os ≠ "" ∧ m.os ≠ goos) ∨ (m.arch ≠ "" ∧ m.arch ≠ goarch) then
      (fs, .ok false)
    else
      match needUpdate currentVersion opts.allowDowngrade m.version with
      | .error e => (fs, .error e)
      | .ok false => (fs, .ok false)
      | .ok true =>
        if downloadOk = false then (fs, .error "download failed")
        else
          let fs1 : FsState :=
            { fs with updates := insertUnique m.version fs.updates }
          let verified : Except String Unit :=
            if m.sha256 = "" then .ok () else verifyChecksum downloadedHash m.sha256
          match verified with
          | .error e => (fs1, .error e)
          | .ok _ => (installRelease fs1 m.version opts.keepReleases, .ok true)

/-! ### Periodic scheduling (`Updater.RunPeriodic`, updater.go:38-67) -/

/-- Default interval substituted when the configured one is not positive. -/
def twoHoursNanos : Nat := 7200 * 1000000000

/-- Initial jitter before the first cycle:
`(1 + now.UnixNano() % 10)` seconds. -/
def initialJitterNanos (nowNanos : Nat) : Nat :=
  (1 + nowNanos % 10) * 1000000000

/-- Effective interval (`if interval <= 0 { interval = 2h }`). -/
def effectiveInterval (interval : Nat) : Nat :=
  if interval = 0 then twoHoursNanos else interval

/-- Delay until the next cycle: the effective interval plus
`now.UnixNano() % (interval / 10)` of additive jitter.  The Go code
computes the jitter bound as `time.Duration(float64(interval) * 0.1)`;
that truncated product is modelled as the exact `interval / 10`. -/
def nextCycleDelay (interval nowNanos : Nat) : Nat :=
  let i := effectiveInterval interval
  let j := i / 10
  if 0 < j then i + nowNanos % j else i

/-- The sequence of waits `RunPeriodic` performs: the initial jitter, then
after each cycle `n` (whatever `outcomes n` was — errors are only logged,
the loop continues) the jittered interval. `nows` abstracts the
`time.Now().UnixNano()` reads. -/
def runPeriodicDelay (interval : Nat) (nows : Nat → Nat)
    (outcomes : Nat → Except String Bool) : Nat → Nat
  | 0 => initialJitterNanos (nows 0)
  | n + 1 =>
    let _ := outcomes n
    nextCycleDelay interval (nows (n + 1))

end Updater

deriving instance DecidableEq for Except

namespace StreamMgr

/-! ### Stream supervision engine (`internal/stream/manager.go`)

Small-step operational model of the manager's supervisory goroutines.
A goroutine is modelled by a `Worker` holding its launch mode and its
control-flow position:

* `Manager.Start` (lines 66-122) launches, per enabled camera, a plain
  goroutine that first acquires the shared semaphore
  (`sem <- struct{}{}`, released only when the goroutine returns), then
  runs `runStreamWithRetry` under an outer loop that, on a permanent
  failure, waits 30 s and restarts the whole cycle. These goroutines are
  not registered in the manager's errgroup.
* `Manager.AddCamera` (lines 284-302) runs `runStreamWithRetry` via
  `m.eg.Go`, with no semaphore and no outer cooldown loop; when the
  function returns an error, the errgroup cancels the shared context
  `m.ctx` (it was created by `errgroup.WithContext`).
* `Manager.RestartStream` (lines 212-234) runs `runStreamWithRetry` in a
  plain goroutine: no semaphore, no outer loop, result discarded.

`runStreamWithRetry` (lines 124-192) is the inner loop: check the shared
context, emit `Connecting`, run `stream.Start`; on error increment the
retry counter, and once it exceeds `maxRetries` (with `maxRetries > 0`)
emit `Error` and return; otherwise emit `Reconnecting` and wait the
linear-backoff delay. When `stream.Start` returns nil, emit
`Disconnected`, reset the counter to zero and wait `retryDelay`.
`stream.Start` returns nil when the ffmpeg process exits cleanly or the
context was cancelled, and an error when it fails to spawn or exits
non-zero; while it blocks in `cmd.Wait()` the stream's status is
`Connected` and one external ffmpeg process is running. -/

/-- How a supervisory loop was launched. -/
inductive LaunchMode
  | viaStart
  | viaAddCamera
  | viaRestart
deriving DecidableEq

/-- The manager-side stream status values sent over the status channel. -/
inductive StreamStatus
  | disconnected
  | connecting
  | connected
  | error
  | reconnecting
deriving DecidableEq

/-- Control-flow position of one supervisory goroutine. The `Nat` carried
by `loopTop`, `procRunning` and `backoffWait` is the current value of
`retryCount`. -/
inductive Phase
  | gateWait
  | loopTop (retryCount : Nat)
  | procRunning (retryCount : Nat)
  | backoffWait (retryCount : Nat)
  | reconnectWait
  | cooldownWait
  | exited
deriving DecidableEq

/-- One supervisory goroutine. -/
structure Worker where
  mode : LaunchMode
  phase : Phase
deriving DecidableEq

/-- Manager configuration: `config.Agent.MaxConcurrency` (validated
default 4), `Manager.maxRetries` (3) and `Manager.retryDelay` (5 s), the
latter in nanoseconds. -/
structure Cfg where
  maxConcurrency : Nat
  maxRetries : Nat
  retryDelayNanos : Nat
deriving DecidableEq

/-- The defaults set by `NewManager` and config validation. -/
def defaultCfg : Cfg := ⟨4, 3, 5 * 1000000000⟩

/-- Global engine state: the supervisory goroutines, whether the shared
context `m.ctx` has been cancelled, and the log of status updates passed
to `sendStatusUpdate` (the bounded queue's drop policy is not modelled;
the claims concern which updates are emitted). -/
structure EngineState where
  workers : List Worker
  cancelled : Bool
  emitted : List (Nat × StreamStatus)
deriving DecidableEq

/-- Does this worker currently hold a semaphore slot?  Only `Start`-made
goroutines ever acquire one; they hold it from the acquire until the
goroutine returns (the release is deferred). -/
def holdsSlot (w : Worker) : Bool :=
  match w.mode, w.phase with
  | .viaStart, .gateWait => false
  | .viaStart, .exited => false
  | .viaStart, _ => true
  | _, _ => false

/-- Number of semaphore slots currently held. -/
def slotCount (s : EngineState) : Nat := s.workers.countP holdsSlot

/-- Is this worker's external ffmpeg process currently running? -/
def isRunning (w : Worker) : Bool :=
  match w.phase with
  | .procRunning _ => true
  | _ => false

/-- Running and launched by `Start` (hence gated). -/
def isRunningStart (w : Worker) : Bool :=
  match w.mode, w.phase with
  | .viaStart, .procRunning _ => true
  | _, _ => false

/-- Replace worker `i`. -/
def setWorker (s : EngineState) (i : Nat) (w : Worker) : EngineState :=
  { s with workers := s.workers.set i w }

/-- Where the inner loop goes after a failed attempt that raised the
counter to `r + 1` (runStreamWithRetry lines 141-172): if the counter
exceeds `maxRetries` (and retries are bounded), emit `Error` and return —
for a `Start` goroutine the outer loop then enters its 30 s cooldown,
while `AddCamera`/`RestartStream` goroutines just end, and an `AddCamera`
goroutine's error return makes the errgroup cancel the shared context.
Otherwise emit `Reconnecting` and wait the backoff delay. -/
def afterFailure (cfg : Cfg) (s : EngineState) (i : Nat) (md : LaunchMode) (r : Nat)
    (pre : List (Nat × StreamStatus)) : EngineState :=
  if 0 < cfg.maxRetries ∧ cfg.maxRetries < r + 1 then
    { workers := s.workers.set i ⟨md, if md = .viaStart then .cooldownWait else .exited⟩
      cancelled := s.cancelled || (md = .viaAddCamera)
      emitted := s.emitted ++ pre ++ [(i, .error)] }
  else
    { workers := s.workers.set i ⟨md, .backoffWait (r + 1)⟩
      cancelled := s.cancelled
      emitted := s.emitted ++ pre ++ [(i, .reconnecting)] }

/-- Scheduler events. `doCancel` is the manager's `m.cancel()` (issued by
`Stop`); `addWorker` is a dynamic `AddCamera`/`RestartStream` launch;
the per-worker events are the ways its blocking operations can resolve. -/
inductive Event
  | doCancel
  | addWorker (md : LaunchMode)
  | acquire (i : Nat)
  | spawnOk (i : Nat)
  | spawnFail (i : Nat)
  | procExitErr (i : Nat)
  | procExitClean (i : Nat)
  | backoffDone (i : Nat)
  | reconnectDone (i : Nat)
  | cooldownDone (i : Nat)
  | cancelObserved (i : Nat)

/-- One interleaving step of the engine; `none` when the event is not
enabled in `s`. -/
def step (cfg : Cfg) (s : EngineState) : Event → Option EngineState
  | .doCancel =>
    if s.cancelled then none else some { s with cancelled := true }
  | .addWorker md =>
    if md = .viaStart then none
    else some { s with workers := s.workers ++ [⟨md, .loopTop 0⟩] }
  | .acquire i =>
    match s.workers[i]? with
    | some ⟨.viaStart, .gateWait⟩ =>
      if slotCount s < cfg.maxConcurrency then
        some (setWorker s i ⟨.viaStart, .loopTop 0⟩)
      else none
    | _ => none
  | .spawnOk i =>
    if s.cancelled then none else
    match s.workers[i]? with
    | some ⟨md, .loopTop r⟩ =>
      some { setWorker s i ⟨md, .procRunning r⟩ with
             emitted := s.emitted ++ [(i, .connecting)] }
    | _ => none
  | .spawnFail i =>
    if s.cancelled then none else
    match s.workers[i]? with
    | some ⟨md, .loopTop r⟩ => some (afterFailure cfg s i md r [(i, .connecting)])
    | _ => none
  | .procExitErr i =>
    if s.cancelled then none else
    match s.workers[i]? with
    | some ⟨md, .procRunning r⟩ => some (afterFailure cfg s i md r [])
    | _ => none
  | .procExitClean i =>
    if s.cancelled then none else
    match s.workers[i]? with
    | some ⟨md, .procRunning _⟩ =>
      some { setWorker s i ⟨md, .reconnectWait⟩ with
             emitted := s.emitted ++ [(i, .disconnected)] }
    | _ => none
  | .backoffDone i =>
    if s.cancelled then none else
    match s.workers[i]? with
    | some ⟨md, .backoffWait r⟩ => some (setWorker s i ⟨md, .loopTop r⟩)
    | _ => none
  | .reconnectDone i =>
    if s.cancelled then none else
    match s.workers[i]? with
    | some ⟨md, .reconnectWait⟩ => some (setWorker s i ⟨md, .loopTop 0⟩)
    | _ => none
  | .cooldownDone i =>
    if s.cancelled then none else
    match s.workers[i]? with
    | some ⟨md, .cooldownWait⟩ => some (setWorker s i ⟨md, .loopTop 0⟩)
    | _ => none
  | .cancelObserved i =>
    if s.cancelled then
      match s.workers[i]? with
      | some ⟨md, ph⟩ =>
        if ph = .gateWait ∨ ph = .exited then none
        else some (setWorker s i ⟨md, .exited⟩)
      | none => none
    else none

/-- Initial position of a goroutine: `Start` goroutines block at the
semaphore first; the others enter `runStreamWithRetry` directly. -/
def initWorker : LaunchMode → Worker
  | .viaStart => ⟨.viaStart, .gateWait⟩
  | .viaAddCamera => ⟨.viaAddCamera, .loopTop 0⟩
  | .viaRestart => ⟨.viaRestart, .loopTop 0⟩

/-- Engine state right after launching the given goroutines. -/
def initState (modes : List LaunchMode) : EngineState :=
  { workers := modes.map initWorker, cancelled := false, emitted := [] }

/-- Reachability from `s0` under the step relation. -/
inductive Reaches (cfg : Cfg) (s0 : EngineState) : EngineState → Prop
  | refl : Reaches cfg s0 s0
  | tail (t u : EngineState) (e : Event) (hst : Reaches cfg s0 t)
      (h : step cfg t e = some u) : Reaches cfg s0 u

/-- Run a concrete event list. -/
def run (cfg : Cfg) (s : EngineState) : List Event → Option EngineState
  | [] => some s
  | e :: es =>
    match step cfg s e with
    | some t => run cfg t es
    | none => none

/-- Point at which `Manager.Stop` (lines 194-210) returns: the
cancellation has been issued and `eg.Wait()` has returned, i.e. every
goroutine registered in the errgroup — exactly those launched via
`AddCamera` — has finished.  `Start`- and `RestartStream`-launched
goroutines are not registered, so `Stop` does not wait for them. -/
def stopReturned (s : EngineState) : Bool :=
  s.cancelled && s.workers.all (fun w => !(w.mode = .viaAddCamera) || (w.phase = .exited))

/-- Workers never exit their supervisory loops while the engine has not
been cancelled. -/
def noStartExited (s : EngineState) : Prop :=
  ∀ w ∈ s.workers, w.mode = .viaStart → w.phase ≠ .exited

/-- A one-slot configuration for the admission-gate counterexample. -/
def cfgOne : Cfg := ⟨1, 3, 5 * 1000000000⟩

/-- A one-retry configuration for the abandonment counterexample. -/
def cfgR1 : Cfg := ⟨4, 1, 5 * 1000000000⟩

/-- Start of the gate counterexample: one `Start` camera, one added. -/
def c1Init : EngineState := initState [.viaStart, .viaAddCamera]

/-- Gate counterexample end state: both ffmpeg processes running. -/
def c1Bad : EngineState :=
  ⟨[⟨.viaStart, .procRunning 0⟩, ⟨.viaAddCamera, .procRunning 0⟩], false,
    [(0, .connecting), (1, .connecting)]⟩

/-- Stop counterexample end state: cancellation issued (so `Stop` has
returned, there being no errgroup-registered goroutines to wait for)
while the `Start`-launched worker's process is still running. -/
def c2Bad : EngineState := ⟨[⟨.viaStart, .procRunning 0⟩], true, [(0, .connecting)]⟩

/-- Start of the abandonment counterexample: one `AddCamera` worker. -/
def c3Init : EngineState := initState [.viaAddCamera]

/-- Abandonment counterexample end state: the worker's goroutine has
returned its error (phase `exited`) and the errgroup has cancelled the
shared context. -/
def c3Bad : EngineState :=
  ⟨[⟨.viaAddCamera, .exited⟩], true,
    [(0, .connecting), (0, .reconnecting), (0, .connecting), (0, .error)]⟩

/-- State used to exercise the cooldown theorem: a `Start` worker at the
loop top with its retry counter already at `maxRetries`. -/
def c3Wit : EngineState :=
  ⟨[⟨.viaStart, .loopTop 3⟩], false,
    [(0, .connecting), (0, .reconnecting), (0, .connecting), (0, .reconnecting),
     (0, .connecting), (0, .reconnecting)]⟩

/-- Counter counterexample intermediate state: the worker is `Connected`
(process running) with retry counter 1. -/
def c7Mid : EngineState :=
  ⟨[⟨.viaStart, .procRunning 1⟩], false,
    [(0, .connecting), (0, .reconnecting), (0, .connecting)]⟩

/-- Counter counterexample end state: after the erroring exit the counter
is 2, not 0. -/
def c7Bad : EngineState :=
  ⟨[⟨.viaStart, .backoffWait 2⟩], false,
    [(0, .connecting), (0, .reconnecting), (0, .connecting), (0, .reconnecting)]⟩

/-- State used to exercise the reset theorem: a worker `Connected` with
retry counter 1 and an empty emission log. -/
def c7Wit : EngineState := ⟨[⟨.viaStart, .procRunning 1⟩], false, []⟩

/-- Linear backoff with cap (runStreamWithRetry lines 161-165):
`retryDelay * retryCount`, clamped to 30 s. Arguments in nanoseconds. -/
def backoffDelay (retryDelay retryCount : Nat) : Nat :=
  let delay := retryDelay * retryCount
  if delay > 30 * 1000000000 then 30 * 1000000000 else delay

/-- Duration of the wait a worker in the given phase is sleeping for:
the backoff delay, the 5 s reconnect delay (line 186), or the outer
loop's fixed 30 s cooldown (Start line 110). -/
def phaseWaitNanos (cfg : Cfg) : Phase → Option Nat
  | .backoffWait r => some (backoffDelay cfg.retryDelayNanos r)
  | .reconnectWait => some cfg.retryDelayNanos
  | .cooldownWait => some (30 * 1000000000)
  | _ => none

end StreamMgr

namespace Updater

/-! ### Updater lemmas -/

theorem length_insertSorted (x : String) :
    ∀ l : List String, (insertSorted x l).length = l.length + 1 := by
  intro l
  induction l with
  | nil => rfl
  | cons y ys ih =>
    simp only [insertSorted]
    split
    · simp
    · simp [ih]

theorem length_sortStrings (l : List String) : (sortStrings l).length = l.length := by
  induction l with
  | nil => rfl
  | cons a as ih =>
    simp only [sortStrings, List.foldr_cons] at *
    rw [length_insertSorted, ih]
    simp

theorem compareLexNat_self : ∀ l : List Nat, compareLexNat l l = .eq := by
  intro l
  induction l with
  | nil => rfl
  | cons a as ih => simp [compareLexNat, natCompare, ih]

theorem compareSegs_self (l : List Nat) : compareSegs l l = .eq := by
  simp [compareSegs, compareLexNat_self]

theorem gvCompare_self (c : GoVersion) : gvCompare c c = .eq := by
  simp [gvCompare, compareSegs_self]

theorem eqFold_refl (a : String) : eqFold a a = true := by
  simp [eqFold]

/-- The version gate never wants an update from a version to itself
(parseable or empty). -/
theorem needUpdate_self (cur : String) (allow : Bool)
    (h : cur = "" ∨ ∃ c, parseVersion cur = some c) :
    needUpdate cur allow cur = .ok false := by
  rcases h with h | ⟨c, hc⟩
  · subst h; rfl
  · by_cases hce : cur = ""
    · subst hce; rfl
    · simp only [needUpdate, if_neg hce, hc]
      simp [gvCompare_self c]

/-! ### Claim theorems: update engine -/

/-- Claim C4: once an update cycle with an accepted manifest reaches the
verification stage, a nonempty manifest checksum that differs from the
staged artifact's SHA-256 makes the cycle return the checksum-mismatch
error with the `current` pointer and the release directories untouched
(only the staged artifact under `updates/` remains); an empty manifest
checksum skips verification and the cycle proceeds to install. -/
theorem C4_checksum_gate (cur : String) (opts : UpdaterOpts) (goos goarch : String)
    (m : Manifest) (hsh : String) (fs : FsState)
    (hch : m.channel = "" ∨ opts.channel = "" ∨ eqFold m.channel opts.channel = true)
    (hos : m.os = "" ∨ m.os = goos) (har : m.arch = "" ∨ m.arch = goarch)
    (hneed : needUpdate cur opts.allowDowngrade m.version = .ok true) :
    (m.sha256 ≠ "" → hsh ≠ m.sha256 →
       checkAndMaybeUpdate cur opts goos goarch (some m) true hsh fs
           = ({ fs with updates := insertUnique m.version fs.updates }, .error "checksum mismatch")
         ∧ ({ fs with updates := insertUnique m.version fs.updates } : FsState).current = fs.current
         ∧ ({ fs with updates := insertUnique m.version fs.updates } : FsState).releases = fs.releases)
      ∧ (m.sha256 = "" →
       checkAndMaybeUpdate cur opts goos goarch (some m) true hsh fs
           = (installRelease { fs with updates := insertUnique m.version fs.updates }
                m.version opts.keepReleases, .ok true)) := by
  have h1 : ¬(m.channel ≠ "" ∧ opts.channel ≠ "" ∧ eqFold m.channel opts.channel = false) := by
    rcases hch with h | h | h <;> simp [h]
  have h2 : ¬((m.os ≠ "" ∧ m.os ≠ goos) ∨ (m.arch ≠ "" ∧ m.arch ≠ goarch)) := by
    rcases hos with h | h <;> rcases har with h' | h' <;> simp [h, h']
  constructor
  · intro hs hne
    simp [checkAndMaybeUpdate, h1, h2, hneed, hs, verifyChecksum, hne]
  · intro hs
    simp [checkAndMaybeUpdate, h1, h2, hneed, hs]

theorem C4_checksum_gate_witness :
    checkAndMaybeUpdate "1.0.0" ⟨true, "", "stable", false, 3, 0⟩ "linux" "amd64"
        (some ⟨"1.1.0", "http://u", "deadbeef", "", "", ""⟩) true "ffff"
        ⟨["1.0.0"], some "1.0.0", []⟩
      = (⟨["1.0.0"], some "1.0.0", ["1.1.0"]⟩, .error "checksum mismatch") := by
  have h := (C4_checksum_gate "1.0.0" ⟨true, "", "stable", false, 3, 0⟩ "linux" "amd64"
    ⟨"1.1.0", "http://u", "deadbeef", "", "", ""⟩ "ffff" ⟨["1.0.0"], some "1.0.0", []⟩
    (Or.inl rfl) (Or.inl rfl) (Or.inl rfl) (by decide)).1 (by decide) (by decide)
  exact h.1.trans (by decide)

/-- Claim C5 (amended): the version gate wants an update iff the
available version is strictly greater than the current one under
go-version (semantic-version) ordering, or strictly less with
`allowDowngrade` set — an equal version is never accepted — and an
unparseable current or available version yields an error, except that an
empty available version is reported as "no update" without being parsed
at all. -/
theorem C5_version_gate (cur avail : String) (allow : Bool) :
    (avail = "" → needUpdate cur allow avail = .ok false)
      ∧ (avail ≠ "" → parseVersion cur = none →
          needUpdate cur allow avail = .error "parse current version")
      ∧ (∀ c, avail ≠ "" → parseVersion cur = some c → parseVersion avail = none →
          needUpdate cur allow avail = .error "parse available version")
      ∧ (∀ c a, avail ≠ "" → parseVersion cur = some c → parseVersion avail = some a →
          needUpdate cur allow avail
            = .ok (decide (gvCompare a c = .gt) || (allow && decide (gvCompare a c = .lt)))) := by
  refine ⟨?_, ?_, ?_, ?_⟩
  · intro h; simp [needUpdate, h]
  · intro h hc; simp [needUpdate, h, hc]
  · intro c h hc ha; simp [needUpdate, h, hc, ha]
  · intro c a h hc ha
    simp only [needUpdate, if_neg h, hc, ha]
    by_cases hg : gvCompare a c = .gt
    · simp [hg]
    · simp only [if_neg hg, decide_eq_false hg, Bool.false_or]
      cases hl : (allow && decide (gvCompare a c = .lt)) <;> simp [hl]

/-- Claim C5 counterexample: the empty string is unparseable
(`version.NewVersion` rejects it), yet the gate returns "no update"
rather than an error when the available version is empty. -/
theorem C5_empty_version_counterexample :
    needUpdate "1.0.0" false "" = .ok false ∧ parseVersion "" = none := by
  exact ⟨rfl, rfl⟩

theorem C5_version_gate_witness : needUpdate "1.0.0" false "1.2.0" = .ok true := by
  have h := (C5_version_gate "1.0.0" "1.2.0" false).2.2.2
    ⟨[1, 0, 0], []⟩ ⟨[1, 2, 0], []⟩ (by decide) (by decide) (by decide)
  exact h.trans (by decide)

/-- Claim C6 (amended): when the release count after an install exceeds
`keepReleases`, pruning leaves exactly `keepReleases` release
directories, namely the ones whose names sort last in the byte-wise
directory order — the survivors are a suffix of the sorted listing, not
necessarily the newest versions, and the just-installed release pointed
to by `current` survives only if its name is among them. -/
theorem C6_prune_retention (keep : Nat) (fs : FsState) (v : String)
    (hk : keep < (insertUnique v fs.releases).length) :
    (installRelease fs v keep).current = some v
      ∧ (installRelease fs v keep).releases
          = (sortStrings (insertUnique v fs.releases)).drop
              ((insertUnique v fs.releases).length - keep)
      ∧ (installRelease fs v keep).releases.length = keep := by
  have hlen : (sortStrings (insertUnique v fs.releases)).length
      = (insertUnique v fs.releases).length := length_sortStrings _
  have hnle : ¬((insertUnique v fs.releases).length ≤ keep) := by omega
  refine ⟨rfl, ?_, ?_⟩
  · simp only [installRelease, pruneOldReleases, hlen, if_neg hnle]
  · simp only [installRelease, pruneOldReleases, hlen, if_neg hnle, List.length_drop]
    omega

/-- Claim C6 counterexample: installing version `10.0.0` over an existing
`9.0.0` with `keepReleases = 1` — a legitimate upgrade accepted by the
version gate — prunes the just-installed release, because `"10.0.0"`
sorts before `"9.0.0"` byte-wise, leaving `current` pointing at a deleted
release directory. -/
theorem C6_current_pruned_counterexample :
    (installRelease ⟨["9.0.0"], some "9.0.0", []⟩ "10.0.0" 1).current = some "10.0.0"
      ∧ ¬("10.0.0" ∈ (installRelease ⟨["9.0.0"], some "9.0.0", []⟩ "10.0.0" 1).releases)
      ∧ needUpdate "9.0.0" false "10.0.0" = .ok true := by
  refine ⟨rfl, by decide, rfl⟩

theorem C6_prune_retention_witness :
    (installRelease ⟨["1.0.0", "1.1.0"], some "1.1.0", []⟩ "1.2.0" 1).current = some "1.2.0"
      ∧ (installRelease ⟨["1.0.0", "1.1.0"], some "1.1.0", []⟩ "1.2.0" 1).releases
          = (sortStrings (insertUnique "1.2.0" (FsState.releases ⟨["1.0.0", "1.1.0"], some "1.1.0", []⟩))).drop
              ((insertUnique "1.2.0" (FsState.releases ⟨["1.0.0", "1.1.0"], some "1.1.0", []⟩)).length - 1)
      ∧ (installRelease ⟨["1.0.0", "1.1.0"], some "1.1.0", []⟩ "1.2.0" 1).releases.length = 1 :=
  C6_prune_retention 1 ⟨["1.0.0", "1.1.0"], some "1.1.0", []⟩ "1.2.0" (by decide)

/-- Claim C9: the periodic loop's first wait is the randomized initial
jitter of between 1 and 10 seconds; every later wait, regardless of the
preceding cycle's outcome (the loop never stops on a cycle result), is
the configured interval plus a jitter of at most a tenth of it — in
particular within the claimed `interval ± 10%` bound. -/
theorem C9_periodic_jitter (interval : Nat) (nows : Nat → Nat)
    (outcomes : Nat → Except String Bool) (n : Nat) (hpos : 0 < interval) :
    (1000000000 ≤ runPeriodicDelay interval nows outcomes 0
       ∧ runPeriodicDelay interval nows outcomes 0 ≤ 10 * 1000000000)
      ∧ (interval ≤ runPeriodicDelay interval nows outcomes (n + 1)
       ∧ runPeriodicDelay interval nows outcomes (n + 1) ≤ interval + interval / 10)
      ∧ (∀ outcomes2 : Nat → Except String Bool,
          runPeriodicDelay interval nows outcomes (n + 1)
            = runPeriodicDelay interval nows outcomes2 (n + 1)) := by
  have hi : effectiveInterval interval = interval := by
    simp [effectiveInterval]
    omega
  refine ⟨⟨?_, ?_⟩, ⟨?_, ?_⟩, fun _ => rfl⟩
  · have := Nat.mod_lt (nows 0) (show 0 < 10 by decide)
    simp only [runPeriodicDelay, initialJitterNanos]
    omega
  · have := Nat.mod_lt (nows 0) (show 0 < 10 by decide)
    simp only [runPeriodicDelay, initialJitterNanos]
    omega
  · simp only [runPeriodicDelay, nextCycleDelay, hi]
    split
    · omega
    · omega
  · simp only [runPeriodicDelay, nextCycleDelay, hi]
    split
    · rename_i hj
      have := Nat.mod_lt (nows (n + 1)) hj
      omega
    · omega

theorem C9_periodic_jitter_witness :
    (1000000000 ≤ runPeriodicDelay (7200 * 1000000000) (fun k => k) (fun _ => .ok false) 0
       ∧ runPeriodicDelay (7200 * 1000000000) (fun k => k) (fun _ => .ok false) 0 ≤ 10 * 1000000000)
      ∧ (7200 * 1000000000 ≤ runPeriodicDelay (7200 * 1000000000) (fun k => k) (fun _ => .ok false) 1
       ∧ runPeriodicDelay (7200 * 1000000000) (fun k => k) (fun _ => .ok false) 1
           ≤ 7200 * 1000000000 + 7200 * 1000000000 / 10)
      ∧ (∀ outcomes2 : Nat → Except String Bool,
          runPeriodicDelay (7200 * 1000000000) (fun k => k) (fun _ => .ok false) 1
            = runPeriodicDelay (7200 * 1000000000) (fun k => k) outcomes2 1) :=
  C9_periodic_jitter (7200 * 1000000000) (fun k => k) (fun _ => .ok false) 0 (by decide)

/-- Claim C10 (amended): when the manifest fetch fails and a fallback URL
is configured, the fabricated manifest carries the agent's own current
version, always passes the channel and platform filters, and — provided
the current version is empty or parseable — fails the version gate as
"no update", so the cycle returns nil with the filesystem untouched and
nothing downloaded or installed; an unparseable nonempty current version
instead surfaces as a version-parse error (see the counterexample). -/
theorem C10_fallback_no_update (cur : String) (opts : UpdaterOpts)
    (goos goarch hsh : String) (dl : Bool) (fs : FsState)
    (hurl : opts.url ≠ "") (_hdow : opts.allowDowngrade = false)
    (hcur : cur = "" ∨ ∃ c, parseVersion cur = some c) :
    checkAndMaybeUpdate cur opts goos goarch none dl hsh fs = (fs, .ok false) := by
  have hne := needUpdate_self cur opts.allowDowngrade hcur
  simp [checkAndMaybeUpdate, hurl, eqFold_refl, hne]

/-- Claim C10 counterexample: with an unparseable current version the
fallback path returns a parse error, not nil. -/
theorem C10_unparseable_current_counterexample :
    checkAndMaybeUpdate "abc" ⟨true, "http://x", "stable", false, 3, 0⟩
        "linux" "amd64" none true "h" ⟨[], none, []⟩
      = (⟨[], none, []⟩, .error "parse current version") := by
  rfl

theorem C10_fallback_no_update_witness :
    checkAndMaybeUpdate "1.0.0" ⟨true, "http://x", "stable", false, 3, 0⟩
        "linux" "amd64" none true "h" ⟨["1.0.0"], some "1.0.0", []⟩
      = (⟨["1.0.0"], some "1.0.0", []⟩, .ok false) :=
  C10_fallback_no_update "1.0.0" ⟨true, "http://x", "stable", false, 3, 0⟩
    "linux" "amd64" "h" true ⟨["1.0.0"], some "1.0.0", []⟩
    (by decide) rfl (Or.inr ⟨⟨[1, 0, 0], []⟩, by decide⟩)

end Updater

namespace StreamMgr

/-! ### Stream engine lemmas -/

theorem countP_set_eq {α : Type} (p : α → Bool) :
    ∀ (l : List α) (i : Nat) (w w' : α), l[i]? = some w →
      (l.set i w').countP p + (if p w then 1 else 0)
        = l.countP p + (if p w' then 1 else 0) := by
  intro l
  induction l with
  | nil => intro i w w' h; simp at h
  | cons a as ih =>
    intro i w w' h
    cases i with
    | zero =>
      simp only [List.getElem?_cons_zero, Option.some.injEq] at h
      subst h
      simp only [List.set_cons_zero, List.countP_cons]
      omega
    | succ n =>
      simp only [List.getElem?_cons_succ] at h
      simp only [List.set_cons_succ, List.countP_cons]
      have := ih n w w' h
      omega

theorem countP_set_le {α : Type} (p : α → Bool) (l : List α) (i : Nat) (w w' : α)
    (M : Nat) (hw : l[i]? = some w)
    (hp : (if p w' then 1 else 0) ≤ ((if p w then 1 else 0) : Nat))
    (hs : l.countP p ≤ M) : (l.set i w').countP p ≤ M := by
  have := countP_set_eq p l i w w' hw
  omega


/-- Each step keeps the semaphore bound, never un-cancels the engine, and
keeps `Start`-launched goroutines alive while not cancelled. -/
theorem step_preserves (cfg : Cfg) (s t : EngineState) (e : Event)
    (h : step cfg s e = some t) :
    (slotCount s ≤ cfg.maxConcurrency → slotCount t ≤ cfg.maxConcurrency)
      ∧ (s.cancelled = true → t.cancelled = true)
      ∧ (t.cancelled = false → (s.cancelled = false → noStartExited s) →
          noStartExited t) := by
  cases e with
  | doCancel =>
    simp only [step] at h
    split at h
    · exact absurd h (by simp)
    · injection h with h
      subst h
      refine ⟨fun hs => hs, fun _ => rfl, fun htc _ => ?_⟩
      simp at htc
  | addWorker md =>
    simp only [step] at h
    split at h
    · exact absurd h (by simp)
    · rename_i hmd
      injection h with h
      subst h
      have hf : holdsSlot ⟨md, .loopTop 0⟩ = false := by
        cases md <;> simp_all [holdsSlot]
      refine ⟨fun hs => ?_, fun hc => hc, fun htc hinv => ?_⟩
      · simpa [slotCount, List.countP_append, List.countP_cons, hf] using hs
      · intro w hw hm
        rcases List.mem_append.mp hw with hw | hw
        · exact hinv htc w hw hm
        · rw [List.mem_singleton.mp hw]
          simp
  | acquire i =>
    simp only [step] at h
    split at h
    · rename_i heq
      split at h
      · rename_i hlt
        injection h with h
        subst h
        have hce := countP_set_eq holdsSlot s.workers i
          ⟨.viaStart, .gateWait⟩ ⟨.viaStart, .loopTop 0⟩ heq
        simp only [holdsSlot] at hce
        simp at hce
        refine ⟨fun _ => ?_, fun hc => hc, fun htc hinv => ?_⟩
        · simp only [slotCount, setWorker] at *
          omega
        · intro w hw hm
          rcases List.mem_or_eq_of_mem_set hw with hw | hw
          · exact hinv htc w hw hm
          · subst hw; simp
      · exact absurd h (by simp)
    · exact absurd h (by simp)
  | spawnOk i =>
    simp only [step] at h
    split at h
    · exact absurd h (by simp)
    split at h
    · rename_i md r heq
      injection h with h
      subst h
      refine ⟨fun hs => ?_, fun hc => hc, fun htc hinv => ?_⟩
      · exact countP_set_le holdsSlot s.workers i _ ⟨md, .procRunning r⟩ _ heq
          (by cases md <;> simp [holdsSlot]) hs
      · intro w hw hm
        rcases List.mem_or_eq_of_mem_set hw with hw | hw
        · exact hinv htc w hw hm
        · subst hw; simp
    · exact absurd h (by simp)
  | spawnFail i =>
    simp only [step] at h
    split at h
    · exact absurd h (by simp)
    split at h
    · rename_i md r heq
      injection h with h
      subst h
      simp only [afterFailure]
      split
      · refine ⟨fun hs => ?_, fun hc => by simp [hc], fun htc hinv => ?_⟩
        · exact countP_set_le holdsSlot s.workers i _
            ⟨md, if md = .viaStart then .cooldownWait else .exited⟩ _ heq
            (by cases md <;> simp [holdsSlot]) hs
        · simp only [Bool.or_eq_false_iff] at htc
          intro w hw hm
          rcases List.mem_or_eq_of_mem_set hw with hw | hw
          · exact hinv htc.1 w hw hm
          · subst hw
            cases md <;> simp_all
      · refine ⟨fun hs => ?_, fun hc => hc, fun htc hinv => ?_⟩
        · exact countP_set_le holdsSlot s.workers i _ ⟨md, .backoffWait (r + 1)⟩ _ heq
            (by cases md <;> simp [holdsSlot]) hs
        · intro w hw hm
          rcases List.mem_or_eq_of_mem_set hw with hw | hw
          · exact hinv htc w hw hm
          · subst hw; simp
    · exact absurd h (by simp)
  | procExitErr i =>
    simp only [step] at h
    split at h
    · exact absurd h (by simp)
    split at h
    · rename_i md r heq
      injection h with h
      subst h
      simp only [afterFailure]
      split
      · refine ⟨fun hs => ?_, fun hc => by simp [hc], fun htc hinv => ?_⟩
        · exact countP_set_le holdsSlot s.workers i _
            ⟨md, if md = .viaStart then .cooldownWait else .exited⟩ _ heq
            (by cases md <;> simp [holdsSlot]) hs
        · simp only [Bool.or_eq_false_iff] at htc
          intro w hw hm
          rcases List.mem_or_eq_of_mem_set hw with hw | hw
          · exact hinv htc.1 w hw hm
          · subst hw
            cases md <;> simp_all
      · refine ⟨fun hs => ?_, fun hc => hc, fun htc hinv => ?_⟩
        · exact countP_set_le holdsSlot s.workers i _ ⟨md, .backoffWait (r + 1)⟩ _ heq
            (by cases md <;> simp [holdsSlot]) hs
        · intro w hw hm
          rcases List.mem_or_eq_of_mem_set hw with hw | hw
          · exact hinv htc w hw hm
          · subst hw; simp
    · exact absurd h (by simp)
  | procExitClean i =>
    simp only [step] at h
    split at h
    · exact absurd h (by simp)
    split at h
    · rename_i md r heq
      injection h with h
      subst h
      refine ⟨fun hs => ?_, fun hc => hc, fun htc hinv => ?_⟩
      · exact countP_set_le holdsSlot s.workers i _ ⟨md, .reconnectWait⟩ _ heq
          (by cases md <;> simp [holdsSlot]) hs
      · intro w hw hm
        rcases List.mem_or_eq_of_mem_set hw with hw | hw
        · exact hinv htc w hw hm
        · subst hw; simp
    · exact absurd h (by simp)
  | backoffDone i =>
    simp only [step] at h
    split at h
    · exact absurd h (by simp)
    split at h
    · rename_i md r heq
      injection h with h
      subst h
      refine ⟨fun hs => ?_, fun hc => hc, fun htc hinv => ?_⟩
      · exact countP_set_le holdsSlot s.workers i _ ⟨md, .loopTop r⟩ _ heq
          (by cases md <;> simp [holdsSlot]) hs
      · intro w hw hm
        rcases List.mem_or_eq_of_mem_set hw with hw | hw
        · exact hinv htc w hw hm
        · subst hw; simp
    · exact absurd h (by simp)
  | reconnectDone i =>
    simp only [step] at h
    split at h
    · exact absurd h (by simp)
    split at h
    · rename_i md heq
      injection h with h
      subst h
      refine ⟨fun hs => ?_, fun hc => hc, fun htc hinv => ?_⟩
      · exact countP_set_le holdsSlot s.workers i _ ⟨md, .loopTop 0⟩ _ heq
          (by cases md <;> simp [holdsSlot]) hs
      · intro w hw hm
        rcases List.mem_or_eq_of_mem_set hw with hw | hw
        · exact hinv htc w hw hm
        · subst hw; simp
    · exact absurd h (by simp)
  | cooldownDone i =>
    simp only [step] at h
    split at h
    · exact absurd h (by simp)
    split at h
    · rename_i md heq
      injection h with h
      subst h
      refine ⟨fun hs => ?_, fun hc => hc, fun htc hinv => ?_⟩
      · exact countP_set_le holdsSlot s.workers i _ ⟨md, .loopTop 0⟩ _ heq
          (by cases md <;> simp [holdsSlot]) hs
      · intro w hw hm
        rcases List.mem_or_eq_of_mem_set hw with hw | hw
        · exact hinv htc w hw hm
        · subst hw; simp
    · exact absurd h (by simp)
  | cancelObserved i =>
    simp only [step] at h
    split at h
    · rename_i hcond
      split at h
      · rename_i md ph heq
        split at h
        · exact absurd h (by simp)
        · injection h with h
          subst h
          refine ⟨fun hs => ?_, fun hc => hc, fun htc hinv => ?_⟩
          · exact countP_set_le holdsSlot s.workers i _ ⟨md, .exited⟩ _ heq
              (by cases md <;> simp [holdsSlot]) hs
          · exact absurd htc (by simp [setWorker, hcond])
      · exact absurd h (by simp)
    · exact absurd h (by simp)

theorem initState_slotCount (modes : List LaunchMode) : slotCount (initState modes) = 0 := by
  simp only [slotCount, initState, List.countP_eq_zero]
  intro w hw
  rcases List.mem_map.mp hw with ⟨m, _, rfl⟩
  cases m <;> simp [initWorker, holdsSlot]

theorem initState_noStartExited (modes : List LaunchMode) :
    noStartExited (initState modes) := by
  intro w hw hm
  rcases List.mem_map.mp hw with ⟨m, _, rfl⟩
  cases m <;> simp [initWorker]

theorem reaches_pres (cfg : Cfg) (s0 s : EngineState) (h : Reaches cfg s0 s)
    (h1 : slotCount s0 ≤ cfg.maxConcurrency)
    (h2 : s0.cancelled = false → noStartExited s0) :
    slotCount s ≤ cfg.maxConcurrency ∧ (s.cancelled = false → noStartExited s) := by
  induction h with
  | refl => exact ⟨h1, h2⟩
  | tail t u e hst hstep ih =>
    have hp := step_preserves cfg t u e hstep
    exact ⟨hp.1 ih.1, fun hcc => hp.2.2 hcc ih.2⟩

theorem reaches_trans (cfg : Cfg) (a b c : EngineState) (h2 : Reaches cfg b c)
    (h1 : Reaches cfg a b) : Reaches cfg a c := by
  induction h2 with
  | refl => exact h1
  | tail t u e hst hstep ih => exact Reaches.tail t u e ih hstep

theorem run_reaches (cfg : Cfg) :
    ∀ (es : List Event) (s t : EngineState), run cfg s es = some t → Reaches cfg s t := by
  intro es
  induction es with
  | nil =>
    intro s t h
    simp only [run, Option.some.injEq] at h
    subst h
    exact Reaches.refl
  | cons e es ih =>
    intro s t h
    cases hst : step cfg s e with
    | none =>
      simp only [run, hst] at h
      exact Option.noConfusion h
    | some u =>
      simp only [run, hst] at h
      exact reaches_trans cfg s u t (ih u t h) (Reaches.tail s u e Reaches.refl hst)

theorem isRunningStart_holdsSlot (w : Worker) (h : isRunningStart w = true) :
    holdsSlot w = true := by
  rcases w with ⟨md, ph⟩
  cases md <;> cases ph <;> simp_all [isRunningStart, holdsSlot]

theorem isRunning_eq_isRunningStart (w : Worker) (hm : w.mode = .viaStart) :
    isRunning w = isRunningStart w := by
  rcases w with ⟨md, ph⟩
  cases md <;> cases ph <;> simp_all [isRunning, isRunningStart]

/-! ### Claim theorems: stream supervision engine -/

/-- Claim C1 (amended): every supervisory loop launched by `Start` blocks
at the shared admission gate (the buffered-channel semaphore) until a
slot is free before running its stream, so in any reachable state at
most `maxConcurrency` `Start`-launched workers have a running external
process — and when every worker was launched by `Start`, at most
`maxConcurrency` external processes run in total.  Loops launched via
`AddCamera` or `RestartStream` never touch the semaphore, so the bound
does not cover them (see the counterexample). -/
theorem C1_start_gate_bound (cfg : Cfg) (modes : List LaunchMode) (s : EngineState)
    (h : Reaches cfg (initState modes) s) :
    s.workers.countP isRunningStart ≤ cfg.maxConcurrency
      ∧ ((∀ w ∈ s.workers, w.mode = .viaStart) →
          s.workers.countP isRunning ≤ cfg.maxConcurrency) := by
  have hinv := (reaches_pres cfg (initState modes) s h
    (by rw [initState_slotCount]; exact Nat.zero_le _)
    (fun _ => initState_noStartExited modes)).1
  refine ⟨le_trans (List.countP_mono_left fun w _ hp => isRunningStart_holdsSlot w hp) hinv,
    fun hall => le_trans (List.countP_mono_left fun w hw hp => ?_) hinv⟩
  rw [isRunning_eq_isRunningStart w (hall w hw)] at hp
  exact isRunningStart_holdsSlot w hp

theorem C1_start_gate_bound_witness :
    (initState [.viaStart]).workers.countP isRunningStart ≤ defaultCfg.maxConcurrency
      ∧ ((∀ w ∈ (initState [.viaStart]).workers, w.mode = .viaStart) →
          (initState [.viaStart]).workers.countP isRunning ≤ defaultCfg.maxConcurrency) :=
  C1_start_gate_bound defaultCfg [.viaStart] (initState [.viaStart]) Reaches.refl

/-- Claim C1 counterexample: with `maxConcurrency = 1`, one enabled
camera started by `Start` and one camera added via `AddCamera`, a state
with two simultaneously running external processes is reachable — the
`AddCamera` supervisory loop runs its stream without blocking at the
admission gate even though the gate's only slot is taken. -/
theorem C1_addcamera_bypasses_gate :
    Reaches cfgOne c1Init c1Bad
      ∧ c1Bad.workers.countP isRunning = 2 ∧ cfgOne.maxConcurrency = 1 :=
  ⟨run_reaches cfgOne [.acquire 0, .spawnOk 0, .spawnOk 1] c1Init c1Bad (by decide),
    by decide, rfl⟩

/-- Claim C2 (code bug): a state is reachable in which `Stop()` has
returned — the global cancellation is issued and `eg.Wait()` is
satisfied, because `Start`-launched supervisory goroutines are launched
with a plain `go` and never registered in the errgroup `Stop` waits on —
while the camera's external transcoding process is still running. -/
theorem C2_stop_returns_with_running_process :
    Reaches defaultCfg (initState [.viaStart]) c2Bad
      ∧ stopReturned c2Bad = true ∧ c2Bad.workers.countP isRunning = 1 :=
  ⟨run_reaches defaultCfg [.acquire 0, .spawnOk 0, .doCancel]
      (initState [.viaStart]) c2Bad (by decide),
    by decide, by decide⟩

/-- Claim C3 (amended): for a `Start`-launched worker whose next start
attempt fails with the retry counter already at the configured maximum
(`maxRetries > 0`), the failing attempt emits `Connecting` then `Error`
and the inner loop exits into the enclosing loop's fixed 30-second
cooldown wait, after which the whole cycle restarts with the retry
counter reset to zero; moreover no `Start`-launched worker's goroutine
ever exits while the engine is not cancelled, so such a camera is never
permanently abandoned.  (Workers launched via `AddCamera` or
`RestartStream` have no enclosing cooldown loop and are abandoned — see
the counterexample.) -/
theorem C3_cooldown_restart (cfg : Cfg) (modes : List LaunchMode) (s : EngineState)
    (i r : Nat) (hreach : Reaches cfg (initState modes) s)
    (hc : s.cancelled = false)
    (hw : s.workers[i]? = some ⟨.viaStart, .loopTop r⟩)
    (hmax : 0 < cfg.maxRetries) (hr : cfg.maxRetries ≤ r) :
    step cfg s (.spawnFail i)
        = some { workers := s.workers.set i ⟨.viaStart, .cooldownWait⟩,
                 cancelled := s.cancelled,
                 emitted := s.emitted ++ [(i, .connecting)] ++ [(i, .error)] }
      ∧ phaseWaitNanos cfg .cooldownWait = some (30 * 1000000000)
      ∧ (∀ t, step cfg s (.spawnFail i) = some t →
          step cfg t (.cooldownDone i) = some (setWorker t i ⟨.viaStart, .loopTop 0⟩))
      ∧ (∀ t, step cfg s (.spawnFail i) = some t → ∀ u, Reaches cfg t u →
          u.cancelled = false → noStartExited u) := by
  have hex : 0 < cfg.maxRetries ∧ cfg.maxRetries < r + 1 := ⟨hmax, by omega⟩
  have hlt : i < s.workers.length := (List.getElem?_eq_some_iff.mp hw).1
  have hstep : step cfg s (.spawnFail i)
      = some { workers := s.workers.set i ⟨.viaStart, .cooldownWait⟩,
               cancelled := s.cancelled,
               emitted := s.emitted ++ [(i, .connecting)] ++ [(i, .error)] } := by
    simp [step, hc, hw, afterFailure, hex]
  have hget : (s.workers.set i ⟨.viaStart, .cooldownWait⟩)[i]?
      = some ⟨.viaStart, .cooldownWait⟩ :=
    List.getElem?_set_eq_of_lt _ hlt
  refine ⟨hstep, rfl, ?_, ?_⟩
  · intro t ht
    rw [hstep] at ht
    injection ht with ht
    subst ht
    simp [step, hc, hget, setWorker]
  · intro t ht u hu huc
    have hrt : Reaches cfg (initState modes) t := Reaches.tail _ _ _ hreach ht
    have hru : Reaches cfg (initState modes) u := reaches_trans cfg _ t u hu hrt
    exact (reaches_pres cfg _ u hru (by rw [initState_slotCount]; exact Nat.zero_le _)
      (fun _ => initState_noStartExited modes)).2 huc

theorem C3_cooldown_restart_witness :
    step defaultCfg c3Wit (.spawnFail 0)
        = some { workers := c3Wit.workers.set 0 ⟨.viaStart, .cooldownWait⟩,
                 cancelled := c3Wit.cancelled,
                 emitted := c3Wit.emitted ++ [(0, .connecting)] ++ [(0, .error)] }
      ∧ phaseWaitNanos defaultCfg .cooldownWait = some (30 * 1000000000)
      ∧ (∀ t, step defaultCfg c3Wit (.spawnFail 0) = some t →
          step defaultCfg t (.cooldownDone 0)
            = some (setWorker t 0 ⟨.viaStart, .loopTop 0⟩))
      ∧ (∀ t, step defaultCfg c3Wit (.spawnFail 0) = some t →
          ∀ u, Reaches defaultCfg t u → u.cancelled = false → noStartExited u) :=
  C3_cooldown_restart defaultCfg [.viaStart] c3Wit 0 3
    (run_reaches defaultCfg
      [.acquire 0, .spawnFail 0, .backoffDone 0, .spawnFail 0, .backoffDone 0,
       .spawnFail 0, .backoffDone 0]
      (initState [.viaStart]) c3Wit (by decide))
    rfl rfl (by decide) (by decide)

/-- Claim C3 counterexample: a worker launched via `AddCamera` whose
retry counter exceeds the maximum emits `Error` and its goroutine exits
permanently — there is no enclosing cooldown-and-restart loop for it
(its error return even cancels the engine's shared context via the
errgroup), contradicting "no camera is ever permanently abandoned". -/
theorem C3_addcamera_abandoned :
    Reaches cfgR1 c3Init c3Bad
      ∧ c3Bad.workers[0]? = some ⟨.viaAddCamera, .exited⟩
      ∧ phaseWaitNanos cfgR1 .exited = none :=
  ⟨run_reaches cfgR1 [.spawnFail 0, .backoffDone 0, .spawnFail 0] c3Init c3Bad (by decide),
    rfl, rfl⟩

/-- Claim C7 (amended): after a `Connected` period (`procRunning r`) the
retry counter is reset to zero only when the stream attempt ends without
error: a clean process exit leads through the reconnect wait back to the
loop top with counter 0, while an erroring process exit within the retry
budget moves the worker to the backoff wait with counter `r + 1` — the
counter is not reset by the `Connected` period itself (see the
counterexample). -/
theorem C7_reset_only_on_clean_end (cfg : Cfg) (s : EngineState) (i : Nat)
    (md : LaunchMode) (r : Nat)
    (hc : s.cancelled = false) (hw : s.workers[i]? = some ⟨md, .procRunning r⟩) :
    step cfg s (.procExitClean i)
        = some { workers := s.workers.set i ⟨md, .reconnectWait⟩,
                 cancelled := s.cancelled,
                 emitted := s.emitted ++ [(i, .disconnected)] }
      ∧ (∀ t, step cfg s (.procExitClean i) = some t →
          step cfg t (.reconnectDone i) = some (setWorker t i ⟨md, .loopTop 0⟩))
      ∧ ((0 < cfg.maxRetries → r + 1 ≤ cfg.maxRetries) →
         step cfg s (.procExitErr i)
           = some { workers := s.workers.set i ⟨md, .backoffWait (r + 1)⟩,
                    cancelled := s.cancelled,
                    emitted := s.emitted ++ [(i, .reconnecting)] }) := by
  have hlt : i < s.workers.length := (List.getElem?_eq_some_iff.mp hw).1
  have hclean : step cfg s (.procExitClean i)
      = some { workers := s.workers.set i ⟨md, .reconnectWait⟩,
               cancelled := s.cancelled,
               emitted := s.emitted ++ [(i, .disconnected)] } := by
    simp [step, hc, hw, setWorker]
  have hget : (s.workers.set i ⟨md, .reconnectWait⟩)[i]? = some ⟨md, .reconnectWait⟩ :=
    List.getElem?_set_eq_of_lt _ hlt
  refine ⟨hclean, ?_, ?_⟩
  · intro t ht
    rw [hclean] at ht
    injection ht with ht
    subst ht
    simp [step, hc, hget, setWorker]
  · intro hb
    have hnex : ¬(0 < cfg.maxRetries ∧ cfg.maxRetries < r + 1) := by
      intro hx
      have := hb hx.1
      omega
    simp [step, hc, hw, afterFailure, hnex]

theorem C7_reset_only_on_clean_end_witness :
    step defaultCfg c7Wit (.procExitClean 0)
        = some { workers := c7Wit.workers.set 0 ⟨.viaStart, .reconnectWait⟩,
                 cancelled := c7Wit.cancelled,
                 emitted := c7Wit.emitted ++ [(0, .disconnected)] }
      ∧ (∀ t, step defaultCfg c7Wit (.procExitClean 0) = some t →
          step defaultCfg t (.reconnectDone 0)
            = some (setWorker t 0 ⟨.viaStart, .loopTop 0⟩))
      ∧ ((0 < defaultCfg.maxRetries → 1 + 1 ≤ defaultCfg.maxRetries) →
         step defaultCfg c7Wit (.procExitErr 0)
           = some { workers := c7Wit.workers.set 0 ⟨.viaStart, .backoffWait (1 + 1)⟩,
                    cancelled := c7Wit.cancelled,
                    emitted := c7Wit.emitted ++ [(0, .reconnecting)] }) :=
  C7_reset_only_on_clean_end defaultCfg c7Wit 0 .viaStart 1 rfl rfl

/-- Claim C7 counterexample: a worker that reached `Connected` with retry
counter 1 and whose process then exits with an error moves to the backoff
wait with counter 2 — the `Connected` period did not reset the counter to
zero. -/
theorem C7_connected_error_keeps_counter :
    Reaches defaultCfg (initState [.viaStart]) c7Mid
      ∧ c7Mid.workers[0]? = some ⟨.viaStart, .procRunning 1⟩
      ∧ step defaultCfg c7Mid (.procExitErr 0) = some c7Bad
      ∧ c7Bad.workers[0]? = some ⟨.viaStart, .backoffWait 2⟩ :=
  ⟨run_reaches defaultCfg [.acquire 0, .spawnFail 0, .backoffDone 0, .spawnOk 0]
      (initState [.viaStart]) c7Mid (by decide),
    rfl, by decide, rfl⟩

/-- Claim C8: the delay before the next retry equals the base retry delay
times the current retry count, capped at 30 seconds, and this is exactly
the wait performed in the backoff phase. -/
theorem C8_linear_backoff_cap (cfg : Cfg) (c : Nat) :
    backoffDelay cfg.retryDelayNanos c = min (cfg.retryDelayNanos * c) (30 * 1000000000)
      ∧ backoffDelay cfg.retryDelayNanos c ≤ 30 * 1000000000
      ∧ phaseWaitNanos cfg (.backoffWait c) = some (backoffDelay cfg.retryDelayNanos c) := by
  refine ⟨?_, ?_, rfl⟩
  · simp only [backoffDelay]
    rw [Nat.min_def]
    split <;> split <;> omega
  · simp only [backoffDelay]
    split <;> omega

end StreamMgr
